import Mathlib

/-!
Shallow embedding of `crates/apub/src/objects/post.rs` (lemmy-sunaurus):
the federation boundary layer converting a local post to an ActivityPub
`Page` and a verified inbound `Page` back to local persisted state.

The file `post.rs` is the only source file available; collaborators it
calls (`ObjectId::dereference`, `verify_person_in_community`,
`verify_is_public`, `verify_domains_match`, `check_slurs`, `remove_slurs`,
`fetch_site_data`, `markdown_to_html`, `convert_datetime`, `Post::upsert`,
`Post::read_from_apub_id`, `Person::read`, `Community::read`) are modelled
from the specification, each marked `Modelled from the spec:` in its doc
comment.  Machine details that no claim depends on (JSON envelope constants
`@context` and `type`, the `ApubPost` newtype wrapper) are elided.
-/

/-- A network address.  Only the authority (host) and the rest of the URL
matter to the code under study: domain checks compare authorities. -/
structure Url where
  host : String
  path : String
deriving DecidableEq, Repr

/-- The literal ActivityPub public marker, `activitystreams::public()`. -/
def publicUrl : Url :=
  { host := "www.w3.org", path := "/ns/activitystreams#Public" }

/-- Error taxonomy of the federation boundary layer (spec section 7). -/
inductive LemmyError where
  | fetchExhausted
  | notFound
  | schemaMismatch
  | notPublic
  | domainMismatch
  | noCommunityInAudience
  | notCommunityMember
  | prohibitedContent
  | persistenceFailure
deriving DecidableEq, Repr

/-- Timestamps: a naive datetime is an instant with no timezone. -/
abbrev NaiveDateTime := Int

/-- `chrono::DateTime<FixedOffset>`: a naive instant plus a fixed offset. -/
structure DateTimeFixedOffset where
  naive : Int
  offset : Int
deriving DecidableEq, Repr

/-- Modelled from the spec: `convert_datetime` (lemmy_utils) attaches the
instance's local offset to a naive datetime. -/
def convert_datetime (localOffset : Int) (t : NaiveDateTime) : DateTimeFixedOffset :=
  { naive := t, offset := localOffset }

/-- `DateTime::naive_local`: drop the offset, keep the naive instant. -/
def DateTimeFixedOffset.naive_local (d : DateTimeFixedOffset) : NaiveDateTime :=
  d.naive

/-- The dual-representation raw source block (`objects::Source`). -/
structure Source where
  content : String
deriving DecidableEq, Repr

/-- An attached image (`objects::ImageObject`). -/
structure ImageObject where
  url : Url
deriving DecidableEq, Repr

/-- The wire object `Page` from `post.rs` (constant envelope fields
`@context` and `type` elided; `unparsed` is the leftover-fields bag). -/
structure Page where
  id : Url
  attributed_to : Url
  toAddrs : List Url
  name : String
  content : Option String
  media_type : Option String
  source : Option Source
  url : Option Url
  image : Option ImageObject
  comments_enabled : Option Bool
  sensitive : Option Bool
  stickied : Option Bool
  published : Option DateTimeFixedOffset
  updated : Option DateTimeFixedOffset
  unparsed : List (String × String)
deriving DecidableEq, Repr

/-- A stored person row; only the fields `post.rs` touches. -/
structure Person where
  id : Nat
  actor_id : Url
deriving DecidableEq, Repr

/-- A stored community row; only the fields `post.rs` touches. -/
structure Community where
  id : Nat
  actor_id : Url
deriving DecidableEq, Repr

/-- The persisted post entity (`lemmy_db_schema::source::post::Post`). -/
structure Post where
  id : Nat
  name : String
  url : Option Url
  body : Option String
  creator_id : Nat
  community_id : Nat
  removed : Bool
  locked : Bool
  published : NaiveDateTime
  updated : Option NaiveDateTime
  deleted : Bool
  nsfw : Bool
  stickied : Bool
  embed_title : Option String
  embed_description : Option String
  embed_html : Option String
  thumbnail_url : Option Url
  ap_id : Url
  islocal : Bool
deriving DecidableEq, Repr

/-- The persistence form built by `from_apub` (`PostForm`). -/
structure PostForm where
  name : String
  url : Option Url
  body : Option String
  creator_id : Nat
  community_id : Nat
  removed : Option Bool
  locked : Option Bool
  published : Option NaiveDateTime
  updated : Option NaiveDateTime
  deleted : Option Bool
  nsfw : Option Bool
  stickied : Option Bool
  embed_title : Option String
  embed_description : Option String
  embed_html : Option String
  thumbnail_url : Option Url
  ap_id : Option Url
  islocal : Option Bool
deriving DecidableEq, Repr

/-- Page metadata returned by the external metadata source. -/
structure SiteMetadata where
  title : Option String
  description : Option String
  html : Option String
deriving DecidableEq, Repr

/-- Instance settings: the slur pattern (modelled as a list of banned
substrings) and the local timezone offset. -/
structure Settings where
  slurs : List String
  localOffset : Int
deriving DecidableEq, Repr

/-- Modelled from the spec: the request budget, "an integer counter, shared
by mutable reference across one entire inbound-processing call tree,
decremented (or inspected) on every remote fetch".  `remaining` is the
budget still available; `fetches` instruments the number of remote fetches
performed so far so that the bound can be stated. -/
structure Budget where
  remaining : Nat
  fetches : Nat
deriving DecidableEq, Repr

/-- The ambient context: persistence tables, remotely fetchable objects,
community membership exclusions, settings, and the out-of-scope pure
collaborators (markdown rendering, site-metadata fetch). -/
structure LemmyContext where
  posts : List Post
  persons : List Person
  communities : List Community
  remotePersons : List (Url × Person)
  remoteCommunities : List (Url × Community)
  banned : List (Nat × Nat)
  settings : Settings
  renderMarkdown : String → String
  siteData : Url → Option SiteMetadata × Option Url

/-- Modelled from the spec: `verify_domains_match` (lemmy_apub_lib)
compares the domain authorities of two addresses; `DomainMismatch` when
they differ. -/
def verify_domains_match (a b : Url) : Except LemmyError Unit :=
  if a.host == b.host then Except.ok () else Except.error LemmyError.domainMismatch

/-- Modelled from the spec: `verify_is_public` (activities module) — the
audience list must contain the literal public marker; `NotPublic`
otherwise. -/
def verify_is_public (toAddrs : List Url) : Except LemmyError Unit :=
  if toAddrs.contains publicUrl then Except.ok () else Except.error LemmyError.notPublic

/-- Does `pat` occur as a contiguous substring of `s`? -/
def occursIn (pat : List Char) : List Char → Bool
  | [] => pat.isPrefixOf []
  | c :: rest => pat.isPrefixOf (c :: rest) || occursIn pat rest

/-- Modelled from the spec: `check_slurs` (lemmy_utils) — reject text
matching the configured slur pattern with `ProhibitedContent`. -/
def check_slurs (s : String) (slurs : List String) : Except LemmyError Unit :=
  if slurs.any (fun sl => occursIn sl.data s.data) then
    Except.error LemmyError.prohibitedContent
  else Except.ok ()

/-- Replace every occurrence of `pat` by `rep`, with explicit fuel (the
length of the scanned text suffices). -/
def replaceAll (pat rep : List Char) : Nat → List Char → List Char
  | 0, s => s
  | _ + 1, [] => []
  | fuel + 1, c :: rest =>
    if pat ≠ [] && pat.isPrefixOf (c :: rest) then
      rep ++ replaceAll pat rep fuel ((c :: rest).drop pat.length)
    else c :: replaceAll pat rep fuel rest

/-- Modelled from the spec: `remove_slurs` (lemmy_utils) — replace
prohibited terms in body text with a redaction marker (soft sanitization,
does not fail the conversion). -/
def remove_slurs (slurs : List String) (s : String) : String :=
  slurs.foldl
    (fun acc sl =>
      String.mk (replaceAll sl.data ("*removed*".data) acc.data.length acc.data))
    s

/-- `Person::read` by id (persistence collaborator).  Modelled from the
spec: `readCreator(id) -> Actor`. -/
def Person.read (ctx : LemmyContext) (pid : Nat) : Except LemmyError Person :=
  match ctx.persons.find? (fun p => p.id == pid) with
  | some p => Except.ok p
  | none => Except.error LemmyError.persistenceFailure

/-- `Community::read` by id (persistence collaborator).  Modelled from the
spec: `readCommunity(id) -> Community`. -/
def Community.read (ctx : LemmyContext) (cid : Nat) : Except LemmyError Community :=
  match ctx.communities.find? (fun c => c.id == cid) with
  | some c => Except.ok c
  | none => Except.error LemmyError.persistenceFailure

/-- `ObjectId::<ApubPost>::dereference_local`: local lookup of a post by
its apub address, never fetching.  Modelled from the spec:
`readByAddress(addr) -> LocalPost?`. -/
def dereference_local_post (ctx : LemmyContext) (addr : Url) : Except LemmyError Post :=
  match ctx.posts.find? (fun p => p.ap_id == addr) with
  | some p => Except.ok p
  | none => Except.error LemmyError.notFound

/-- Modelled from the spec: `ObjectId::<ApubPerson>::dereference` — local
lookup by address first; on miss a remote fetch, gated and counted by the
shared budget (`FetchExhausted` when spent, `NotFound` when neither side
has the object). -/
def dereferencePerson (ctx : LemmyContext) (addr : Url) (b : Budget) :
    Except LemmyError Person × Budget :=
  match ctx.persons.find? (fun p => p.actor_id == addr) with
  | some p => (Except.ok p, b)
  | none =>
    if b.remaining = 0 then (Except.error LemmyError.fetchExhausted, b)
    else
      match ctx.remotePersons.find? (fun q => q.1 == addr) with
      | some q => (Except.ok q.2, { remaining := b.remaining - 1, fetches := b.fetches + 1 })
      | none => (Except.error LemmyError.notFound, { remaining := b.remaining - 1, fetches := b.fetches + 1 })

/-- Modelled from the spec: `ObjectId::<ApubCommunity>::dereference`,
identical contract to the person dereference. -/
def dereferenceCommunity (ctx : LemmyContext) (addr : Url) (b : Budget) :
    Except LemmyError Community × Budget :=
  match ctx.communities.find? (fun c => c.actor_id == addr) with
  | some c => (Except.ok c, b)
  | none =>
    if b.remaining = 0 then (Except.error LemmyError.fetchExhausted, b)
    else
      match ctx.remoteCommunities.find? (fun q => q.1 == addr) with
      | some q => (Except.ok q.2, { remaining := b.remaining - 1, fetches := b.fetches + 1 })
      | none => (Except.error LemmyError.notFound, { remaining := b.remaining - 1, fetches := b.fetches + 1 })

/-- Modelled from the spec: `verify_person_in_community` (activities
module) — dereference the attributed actor through the shared budget, then
require that the actor is not banned/excluded from the community
(`NotCommunityMember`). -/
def verify_person_in_community (ctx : LemmyContext) (personAddr : Url)
    (community : Community) (b : Budget) : Except LemmyError Unit × Budget :=
  match dereferencePerson ctx personAddr b with
  | (Except.error e, b1) => (Except.error e, b1)
  | (Except.ok person, b1) =>
    if ctx.banned.contains (person.id, community.id) then
      (Except.error LemmyError.notCommunityMember, b1)
    else (Except.ok (), b1)

/-- `Page::id_unchecked`: the page's own address, unverified. -/
def Page.id_unchecked (page : Page) : Url :=
  page.id

/-- `Page::id`: the page's own address, after verifying its domain matches
the expected domain. -/
def Page.idVerified (page : Page) (expected_domain : Url) : Except LemmyError Url :=
  match verify_domains_match page.id expected_domain with
  | Except.error e => Except.error e
  | Except.ok _ => Except.ok page.id

/-- `Page::is_mod_action`: look up the stored post at the page's own
address; the update is a mod action when the inbound stickied flag differs
from the stored value or the inbound comments-enabled flag differs from
the negation of the stored locked value; never a mod action when no local
copy exists. -/
def Page.is_mod_action (page : Page) (ctx : LemmyContext) : Bool :=
  match dereference_local_post ctx page.id with
  | Except.ok old_post =>
    page.stickied != some old_post.stickied ||
      page.comments_enabled != some (!old_post.locked)
  | Except.error _ => false

/-- The scan loop of `Page::extract_community`: try each audience address
in order, accept the first that dereferences as a community; individual
failures are skipped; `NoCommunityInAudience` ("No community found in cc")
when the list is exhausted. -/
def extractCommunityAux (ctx : LemmyContext) : List Url → Budget →
    Except LemmyError Community × Budget
  | [], b => (Except.error LemmyError.noCommunityInAudience, b)
  | cid :: rest, b =>
    match dereferenceCommunity ctx cid b with
    | (Except.ok c, b1) => (Except.ok c, b1)
    | (Except.error _, b1) => extractCommunityAux ctx rest b1

/-- `Page::extract_community`: scan the `to` list. -/
def Page.extract_community (page : Page) (ctx : LemmyContext) (b : Budget) :
    Except LemmyError Community × Budget :=
  extractCommunityAux ctx page.toAddrs b

/-- `Page::verify`: community resolution from the audience list, then slur
check on the title, then attribution-versus-own-address domain check, then
membership, then the public-audience check; each via `?`, so the first
failure short-circuits. -/
def Page.verify (page : Page) (ctx : LemmyContext) (b : Budget) :
    Except LemmyError Unit × Budget :=
  match page.extract_community ctx b with
  | (Except.error e, b1) => (Except.error e, b1)
  | (Except.ok community, b1) =>
    match check_slurs page.name ctx.settings.slurs with
    | Except.error e => (Except.error e, b1)
    | Except.ok _ =>
      match verify_domains_match page.attributed_to page.id with
      | Except.error e => (Except.error e, b1)
      | Except.ok _ =>
        match verify_person_in_community ctx page.attributed_to community b1 with
        | (Except.error e, b2) => (Except.error e, b2)
        | (Except.ok _, b2) =>
          match verify_is_public page.toAddrs with
          | Except.error e => (Except.error e, b2)
          | Except.ok _ => (Except.ok (), b2)

/-- Build a fresh `Post` row from a form (insert half of the upsert);
absent optional fields take the column defaults. -/
def postOfForm (pid : Nat) (form : PostForm) : Post :=
  { id := pid
    name := form.name
    url := form.url
    body := form.body
    creator_id := form.creator_id
    community_id := form.community_id
    removed := form.removed.getD false
    locked := form.locked.getD false
    published := form.published.getD 0
    updated := form.updated
    deleted := form.deleted.getD false
    nsfw := form.nsfw.getD false
    stickied := form.stickied.getD false
    embed_title := form.embed_title
    embed_description := form.embed_description
    embed_html := form.embed_html
    thumbnail_url := form.thumbnail_url
    ap_id := form.ap_id.getD { host := "", path := "" }
    islocal := form.islocal.getD true }

/-- Update half of the upsert: overwrite the stored row from the form,
keeping the row id and address; absent optional fields keep the stored
values. -/
def updatePostFromForm (old : Post) (form : PostForm) : Post :=
  { id := old.id
    name := form.name
    url := form.url
    body := form.body
    creator_id := form.creator_id
    community_id := form.community_id
    removed := form.removed.getD old.removed
    locked := form.locked.getD old.locked
    published := form.published.getD old.published
    updated := form.updated
    deleted := form.deleted.getD old.deleted
    nsfw := form.nsfw.getD old.nsfw
    stickied := form.stickied.getD old.stickied
    embed_title := form.embed_title
    embed_description := form.embed_description
    embed_html := form.embed_html
    thumbnail_url := form.thumbnail_url
    ap_id := old.ap_id
    islocal := form.islocal.getD old.islocal }

/-- A fresh row id, larger than every existing one. -/
def freshPostId (ctx : LemmyContext) : Nat :=
  (ctx.posts.map Post.id).foldr Nat.max 0 + 1

/-- Modelled from the spec: `Post::upsert` — create-or-update keyed on the
network address (`ap_id`); re-processing the same address updates the same
row, never creating a duplicate. -/
def Post.upsert (ctx : LemmyContext) (form : PostForm) : Post × LemmyContext :=
  match form.ap_id with
  | none =>
    let p := postOfForm (freshPostId ctx) form
    (p, { ctx with posts := ctx.posts ++ [p] })
  | some addr =>
    match ctx.posts.find? (fun p => p.ap_id == addr) with
    | some old =>
      let p := updatePostFromForm old form
      (p, { ctx with posts := ctx.posts.map (fun q => if q.ap_id == addr then p else q) })
    | none =>
      let p := postOfForm (freshPostId ctx) form
      (p, { ctx with posts := ctx.posts ++ [p] })

/-- `ApubPost::to_apub`: read the creator and community rows from
persistence for their addresses, then build the wire `Page` from the local
post. -/
def to_apub (post : Post) (ctx : LemmyContext) : Except LemmyError Page :=
  match Person.read ctx post.creator_id with
  | Except.error e => Except.error e
  | Except.ok creator =>
    match Community.read ctx post.community_id with
    | Except.error e => Except.error e
    | Except.ok community =>
      Except.ok
        { id := post.ap_id
          attributed_to := creator.actor_id
          toAddrs := [community.actor_id, publicUrl]
          name := post.name
          content := post.body.map ctx.renderMarkdown
          media_type := some "text/html"
          source := post.body.map (fun b => { content := b })
          url := post.url
          image := post.thumbnail_url.map (fun t => { url := t })
          comments_enabled := some (!post.locked)
          sensitive := some post.nsfw
          stickied := some post.stickied
          published := some (convert_datetime ctx.settings.localOffset post.published)
          updated := post.updated.map (convert_datetime ctx.settings.localOffset)
          unparsed := [] }

/-- `ApubPost::from_apub`: mod-action-relaxed domain check on the page's
own address, creator dereference, community resolution, membership check,
metadata enrichment, body sanitization, then upsert.  Returns the
conversion result together with the (possibly updated) stored state and
the final budget; every failure leaves the stored state unchanged. -/
def from_apub (page : Page) (ctx : LemmyContext) (expected_domain : Url)
    (b : Budget) : Except LemmyError Post × LemmyContext × Budget :=
  match
    (if page.is_mod_action ctx then Except.ok page.id_unchecked
     else page.idVerified expected_domain : Except LemmyError Url) with
  | Except.error e => (Except.error e, ctx, b)
  | Except.ok ap_id =>
    match dereferencePerson ctx page.attributed_to b with
    | (Except.error e, b1) => (Except.error e, ctx, b1)
    | (Except.ok creator, b1) =>
      match page.extract_community ctx b1 with
      | (Except.error e, b2) => (Except.error e, ctx, b2)
      | (Except.ok community, b2) =>
        match verify_person_in_community ctx page.attributed_to community b2 with
        | (Except.error e, b3) => (Except.error e, ctx, b3)
        | (Except.ok _, b3) =>
          let thumbnail_url : Option Url := page.image.map (fun i => i.url)
          let fetched : Option SiteMetadata × Option Url :=
            match page.url with
            | some u => ctx.siteData u
            | none => (none, thumbnail_url)
          let embeds : Option String × Option String × Option String :=
            match fetched.1 with
            | some m => (m.title, m.description, m.html)
            | none => (none, none, none)
          let body_slurs_removed : Option String :=
            page.source.map (fun s => remove_slurs ctx.settings.slurs s.content)
          let form : PostForm :=
            { name := page.name
              url := page.url
              body := body_slurs_removed
              creator_id := creator.id
              community_id := community.id
              removed := none
              locked := page.comments_enabled.map (fun e => !e)
              published := page.published.map DateTimeFixedOffset.naive_local
              updated := page.updated.map DateTimeFixedOffset.naive_local
              deleted := none
              nsfw := page.sensitive
              stickied := page.stickied
              embed_title := embeds.1
              embed_description := embeds.2.1
              embed_html := embeds.2.2
              thumbnail_url := fetched.2
              ap_id := some ap_id
              islocal := some false }
          let res := Post.upsert ctx form
          (Except.ok res.1, res.2, b3)

/-- A sample post address on instance `a.example`. -/
def uPost : Url := { host := "a.example", path := "/post/1" }

/-- A sample author address on the same instance. -/
def uBob : Url := { host := "a.example", path := "/u/bob" }

/-- A sample community address on the same instance. -/
def uCats : Url := { host := "a.example", path := "/c/cats" }

/-- An author address hosted on a different instance. -/
def uRemoteBob : Url := { host := "b.example", path := "/u/bob" }

/-- A sample stored person row. -/
def bob : Person := { id := 1, actor_id := uBob }

/-- A sample stored community row. -/
def cats : Community := { id := 2, actor_id := uCats }

/-- A context with the author and community stored locally, no posts. -/
def baseCtx : LemmyContext :=
  { posts := []
    persons := [bob]
    communities := [cats]
    remotePersons := []
    remoteCommunities := []
    banned := []
    settings := { slurs := ["slur"], localOffset := 0 }
    renderMarkdown := fun s => s
    siteData := fun _ => (none, none) }

/-- A well-formed public inbound page for `baseCtx`. -/
def basePage : Page :=
  { id := uPost
    attributed_to := uBob
    toAddrs := [uCats, publicUrl]
    name := "Post title"
    content := none
    media_type := none
    source := some { content := "body text" }
    url := none
    image := none
    comments_enabled := some true
    sensitive := some false
    stickied := some false
    published := some { naive := 0, offset := 0 }
    updated := none
    unparsed := [] }

/-- A spent request budget. -/
def zeroBudget : Budget := { remaining := 0, fetches := 0 }

/-- A stored copy of the sample post, locked and unstickied. -/
def storedPost : Post :=
  { id := 1
    name := "Post title"
    url := none
    body := some "body text"
    creator_id := 1
    community_id := 2
    removed := false
    locked := false
    published := 0
    updated := none
    deleted := false
    nsfw := false
    stickied := false
    embed_title := none
    embed_description := none
    embed_html := none
    thumbnail_url := none
    ap_id := uPost
    islocal := false }

/-- `baseCtx` with the sample post already stored. -/
def ctxWithStored : LemmyContext := { baseCtx with posts := [storedPost] }

/-- The sample page with the stickied flag omitted. -/
def pageNoStickied : Page := { basePage with stickied := none }

/-- The conserved quantity of the request budget: remaining allowance plus
fetches already performed. -/
def Budget.total (b : Budget) : Nat := b.remaining + b.fetches

/-- A public-marker-free page whose title matches the slur pattern. -/
def pageC1 : Page := { basePage with toAddrs := [uCats], name := "a slur title" }

/-- A page with an empty audience list. -/
def pageEmptyAudience : Page := { basePage with toAddrs := [] }

/-- A page whose audience holds only an address that is not a community. -/
def pageAudienceNoCommunity : Page := { basePage with toAddrs := [uBob] }

/-- A page whose audience holds the community address but no public
marker, with every other check passing. -/
def pageNoPublic : Page := { basePage with toAddrs := [uCats] }

/-- The author row stored with an address on another instance. -/
def bobRemote : Person := { id := 1, actor_id := uRemoteBob }

/-- `baseCtx` with the author's stored address on another instance. -/
def ctxRemoteAuthor : LemmyContext := { baseCtx with persons := [bobRemote] }

/-- The sample page attributed to an author on another instance. -/
def pageRemoteAuthor : Page := { basePage with attributed_to := uRemoteBob }

/-- A context storing the community under a different address. -/
def catsElsewhere : Community :=
  { id := 2, actor_id := { host := "other.example", path := "/c/cats" } }

/-- `baseCtx` with the community row moved to another instance. -/
def ctxOtherCommunity : LemmyContext := { baseCtx with communities := [catsElsewhere] }

/-- The wire page `to_apub` produces for `storedPost` over `baseCtx`. -/
def storedPostPage : Page :=
  { id := uPost
    attributed_to := uBob
    toAddrs := [uCats, publicUrl]
    name := "Post title"
    content := some "body text"
    media_type := some "text/html"
    source := some { content := "body text" }
    url := none
    image := none
    comments_enabled := some true
    sensitive := some false
    stickied := some false
    published := some { naive := 0, offset := 0 }
    updated := none
    unparsed := [] }

/-- An external link address. -/
def uLink : Url := { host := "news.example", path := "/article" }

/-- The explicit thumbnail carried by the wire object. -/
def uImg : Url := { host := "a.example", path := "/img/explicit.png" }

/-- The fallback thumbnail returned by the metadata source. -/
def uFetched : Url := { host := "a.example", path := "/img/fetched.png" }

/-- `baseCtx` whose metadata source returns a fallback thumbnail. -/
def ctxWithMetadata : LemmyContext :=
  { baseCtx with
    siteData := fun _ =>
      (some { title := some "t", description := none, html := none }, some uFetched) }

/-- The sample page carrying both a link URL and an explicit thumbnail. -/
def pageWithThumb : Page :=
  { basePage with url := some uLink, image := some { url := uImg } }

/-!
## Theorems

Each claim of the specification is settled by one theorem below, with
concrete witnesses and counterexamples where called for.
-/

/-- C5: An inbound update is classified as a moderator action if and only
if a stored local copy with the same address exists and either the inbound
stickied flag differs from the stored stickied value or the inbound
comments-enabled flag differs from the negation of the stored locked
value; when no local copy exists, the classification is always false. -/
theorem is_mod_action_characterization (page : Page) (ctx : LemmyContext) :
    page.is_mod_action ctx = true ↔
      ∃ old : Post, dereference_local_post ctx page.id = Except.ok old ∧
        (page.stickied ≠ some old.stickied ∨
          page.comments_enabled ≠ some (!old.locked)) := by
  unfold Page.is_mod_action
  cases h : dereference_local_post ctx page.id with
  | error e => simp
  | ok old_post => simp [bne_iff_ne]

/-- C10: when a stored local copy of the post exists, an inbound page that
omits the stickied flag entirely (or omits the comments-enabled flag) is
classified as a moderator action, because an absent optional flag never
equals the stored concrete value; consequently `from_apub`'s result does
not depend on the expected domain for such a page. -/
theorem absent_flag_forces_mod_action (page : Page) (ctx : LemmyContext) (old : Post)
    (h1 : dereference_local_post ctx page.id = Except.ok old)
    (h2 : page.stickied = none ∨ page.comments_enabled = none) :
    page.is_mod_action ctx = true ∧
      ∀ (e1 e2 : Url) (b : Budget),
        from_apub page ctx e1 b = from_apub page ctx e2 b := by
  have hmod : page.is_mod_action ctx = true := by
    unfold Page.is_mod_action
    rw [h1]
    rcases h2 with h | h <;> simp [h]
  refine ⟨hmod, fun e1 e2 b => ?_⟩
  unfold from_apub
  rw [hmod]
  rfl

/-- Witness for C10: a concrete page omitting its stickied flag over a
store holding the post is classified as a moderator action and converts
identically under two different expected domains. -/
theorem absent_flag_forces_mod_action_witness :
    pageNoStickied.is_mod_action ctxWithStored = true ∧
      from_apub pageNoStickied ctxWithStored uPost zeroBudget =
        from_apub pageNoStickied ctxWithStored uRemoteBob zeroBudget :=
  ⟨(absent_flag_forces_mod_action pageNoStickied ctxWithStored storedPost rfl
      (Or.inl rfl)).1,
    (absent_flag_forces_mod_action pageNoStickied ctxWithStored storedPost rfl
      (Or.inl rfl)).2 uPost uRemoteBob zeroBudget⟩

/-- A person dereference preserves the budget total. -/
theorem dereferencePerson_total (ctx : LemmyContext) (addr : Url) (b : Budget) :
    ((dereferencePerson ctx addr b).2).total = b.total := by
  unfold dereferencePerson
  cases hf : ctx.persons.find? (fun p => p.actor_id == addr) with
  | some p => rfl
  | none =>
    by_cases hz : b.remaining = 0
    · simp [hz]
    · cases hr : ctx.remotePersons.find? (fun q => q.1 == addr) with
      | some q => simp [hz, hr, Budget.total]; omega
      | none => simp [hz, hr, Budget.total]; omega

/-- A community dereference preserves the budget total. -/
theorem dereferenceCommunity_total (ctx : LemmyContext) (addr : Url) (b : Budget) :
    ((dereferenceCommunity ctx addr b).2).total = b.total := by
  unfold dereferenceCommunity
  cases hf : ctx.communities.find? (fun c => c.actor_id == addr) with
  | some c => rfl
  | none =>
    by_cases hz : b.remaining = 0
    · simp [hz]
    · cases hr : ctx.remoteCommunities.find? (fun q => q.1 == addr) with
      | some q => simp [hz, hr, Budget.total]; omega
      | none => simp [hz, hr, Budget.total]; omega

/-- The audience scan preserves the budget total. -/
theorem extractCommunityAux_total (ctx : LemmyContext) (l : List Url) (b : Budget) :
    ((extractCommunityAux ctx l b).2).total = b.total := by
  induction l generalizing b with
  | nil => rfl
  | cons cid rest ih =>
    unfold extractCommunityAux
    have hd := dereferenceCommunity_total ctx cid b
    cases h : dereferenceCommunity ctx cid b with
    | mk r b1 =>
      rw [h] at hd
      cases r with
      | ok c => simpa using hd
      | error e =>
        simp only []
        calc ((extractCommunityAux ctx rest b1).2).total = b1.total := ih b1
          _ = b.total := by simpa using hd

/-- Community resolution preserves the budget total. -/
theorem extract_community_total (page : Page) (ctx : LemmyContext) (b : Budget) :
    ((page.extract_community ctx b).2).total = b.total :=
  extractCommunityAux_total ctx page.toAddrs b

/-- The membership check preserves the budget total. -/
theorem verify_person_in_community_total (ctx : LemmyContext) (addr : Url)
    (community : Community) (b : Budget) :
    ((verify_person_in_community ctx addr community b).2).total = b.total := by
  unfold verify_person_in_community
  have hd := dereferencePerson_total ctx addr b
  cases h : dereferencePerson ctx addr b with
  | mk r b1 =>
    rw [h] at hd
    cases r with
    | error e => simpa using hd
    | ok person =>
      by_cases hb : (person.id, community.id) ∈ ctx.banned
      · simpa [hb] using hd
      · simpa [hb] using hd

/-- One inbound conversion preserves the budget total: every remote fetch
it triggers decrements the remaining allowance as it increments the fetch
count. -/
theorem from_apub_total (page : Page) (ctx : LemmyContext) (ed : Url) (b : Budget) :
    ((from_apub page ctx ed b).2.2).total = b.total := by
  unfold from_apub
  split
  · rfl
  · have h1 := dereferencePerson_total ctx page.attributed_to b
    cases hp : dereferencePerson ctx page.attributed_to b with
    | mk r1 b1 =>
      rw [hp] at h1
      replace h1 : b1.total = b.total := by simpa using h1
      cases r1 with
      | error e => simpa using h1
      | ok creator =>
        dsimp only
        have h2 := extract_community_total page ctx b1
        cases hc : page.extract_community ctx b1 with
        | mk r2 b2 =>
          rw [hc] at h2
          replace h2 : b2.total = b1.total := by simpa using h2
          cases r2 with
          | error e => simpa using h2.trans h1
          | ok community =>
            dsimp only
            have h3 := verify_person_in_community_total ctx page.attributed_to community b2
            cases hm : verify_person_in_community ctx page.attributed_to community b2 with
            | mk r3 b3 =>
              rw [hm] at h3
              replace h3 : b3.total = b2.total := by simpa using h3
              cases r3 with
              | error e => simpa using h3.trans (h2.trans h1)
              | ok u => simpa using h3.trans (h2.trans h1)

/-- C9: for every request budget of N, one inbound conversion performs at
most N remote fetches in total: the single counter is threaded through the
creator dereference, the community resolution over the audience list, and
the membership verification, so the final fetch count never exceeds N. -/
theorem from_apub_budget_bound (page : Page) (ctx : LemmyContext) (ed : Url) (N : Nat) :
    ((from_apub page ctx ed { remaining := N, fetches := 0 }).2.2).fetches ≤ N := by
  have h := from_apub_total page ctx ed { remaining := N, fetches := 0 }
  simp [Budget.total] at h
  omega

/-- Counterexample for C1: `from_apub` persists a page whose audience
omits the public marker and whose title matches the slur pattern — the
audience-publicity and title content-safety checks of the Verification
Pipeline are not run by `from_apub` (they live in `Page::verify`), so the
converter persists a form that the full pipeline would reject. -/
theorem from_apub_persists_unverified_page :
    ((from_apub pageC1 baseCtx uPost zeroBudget).1).isOk = true ∧
    verify_is_public pageC1.toAddrs = Except.error LemmyError.notPublic ∧
    check_slurs pageC1.name baseCtx.settings.slurs =
      Except.error LemmyError.prohibitedContent ∧
    ((from_apub pageC1 baseCtx uPost zeroBudget).2.1).posts.length =
      baseCtx.posts.length + 1 :=
  ⟨rfl, rfl, rfl, rfl⟩

/-- C1 (amended): `from_apub` runs the mod-action-relaxed domain check,
the creator dereference, community resolution and the membership check
before building the persistence form, and any failure of these is
terminal: on any error the stored state is unchanged (the converter
persists a fully-built form or persists nothing); on success the domain
check passed unless the object was classified a moderator action.  The
audience-publicity and title content-safety checks are not part of
`from_apub`; they live in the separate `Page::verify`. -/
theorem from_apub_failure_is_terminal (page : Page) (ctx : LemmyContext) (ed : Url)
    (b : Budget) :
    (∀ e, (from_apub page ctx ed b).1 = Except.error e →
      (from_apub page ctx ed b).2.1 = ctx) ∧
    (∀ post, (from_apub page ctx ed b).1 = Except.ok post →
      page.is_mod_action ctx = true ∨ verify_domains_match page.id ed = Except.ok ()) := by
  constructor
  · intro e he
    unfold from_apub at he ⊢
    rcases hA : (if page.is_mod_action ctx then Except.ok page.id_unchecked
        else page.idVerified ed : Except LemmyError Url) with e1 | apid
    · rfl
    · rw [hA] at he
      dsimp only at he ⊢
      rcases hp : dereferencePerson ctx page.attributed_to b with ⟨r1, b1⟩
      rw [hp] at he
      cases r1 with
      | error e2 => rfl
      | ok creator =>
        dsimp only at he ⊢
        rcases hc : page.extract_community ctx b1 with ⟨r2, b2⟩
        rw [hc] at he
        cases r2 with
        | error e2 => rfl
        | ok community =>
          dsimp only at he ⊢
          rcases hm : verify_person_in_community ctx page.attributed_to community b2
            with ⟨r3, b3⟩
          rw [hm] at he
          cases r3 with
          | error e2 => rfl
          | ok u =>
            dsimp only at he
            exact absurd he (by simp)
  · intro post hpost
    by_cases hmod : page.is_mod_action ctx = true
    · exact Or.inl hmod
    · cases hv : verify_domains_match page.id ed with
      | ok u => exact Or.inr rfl
      | error e =>
        exfalso
        unfold from_apub at hpost
        rw [if_neg hmod] at hpost
        unfold Page.idVerified at hpost
        rw [hv] at hpost
        simp at hpost

/-- Witness for C1 (amended): a failing conversion (no community in the
audience) leaves the stored state untouched. -/
theorem from_apub_failure_is_terminal_witness :
    (from_apub pageEmptyAudience baseCtx uPost zeroBudget).2.1 = baseCtx :=
  (from_apub_failure_is_terminal pageEmptyAudience baseCtx uPost zeroBudget).1
    LemmyError.noCommunityInAudience rfl

/-- Counterexample for C2: a page whose audience omits the public marker
is rejected, but not with `NotPublic`: when no community resolves from the
audience list the error is `NoCommunityInAudience`, because the public
check runs last in `Page::verify`, not first. -/
theorem nonpublic_rejection_not_always_notPublic :
    pageAudienceNoCommunity.toAddrs.contains publicUrl = false ∧
    (pageAudienceNoCommunity.verify baseCtx zeroBudget).1 =
      Except.error LemmyError.noCommunityInAudience :=
  ⟨rfl, rfl⟩

/-- C2 (amended): a page whose audience list omits the public marker is
always rejected by `Page::verify` — never accepted — and the error is
`NotPublic` exactly when every check preceding the public check
(community resolution, title content-safety, attribution-domain,
membership) passes; otherwise the earlier failure's error is reported. -/
theorem missing_public_marker_always_rejected (page : Page) (ctx : LemmyContext)
    (b : Budget) (hpub : publicUrl ∉ page.toAddrs) :
    ((page.verify ctx b).1).isOk = false ∧
    (∀ c b1 b2, page.extract_community ctx b = (Except.ok c, b1) →
      check_slurs page.name ctx.settings.slurs = Except.ok () →
      verify_domains_match page.attributed_to page.id = Except.ok () →
      verify_person_in_community ctx page.attributed_to c b1 = (Except.ok (), b2) →
      (page.verify ctx b).1 = Except.error LemmyError.notPublic) := by
  constructor
  · unfold Page.verify
    rcases hc : page.extract_community ctx b with ⟨r1, b1⟩
    cases r1 with
    | error e => rfl
    | ok community =>
      dsimp only
      cases hs : check_slurs page.name ctx.settings.slurs with
      | error e => rfl
      | ok u =>
        dsimp only
        cases hd : verify_domains_match page.attributed_to page.id with
        | error e => rfl
        | ok v =>
          dsimp only
          rcases hm : verify_person_in_community ctx page.attributed_to community b1
            with ⟨r2, b2⟩
          cases r2 with
          | error e => rfl
          | ok w =>
            dsimp only
            simp only [verify_is_public, hpub, if_neg, List.elem_eq_mem, decide_eq_true_eq]
            rfl
  · intro c b1 b2 h1 h2 h3 h4
    unfold Page.verify
    rw [h1]
    dsimp only
    rw [h2]
    dsimp only
    rw [h3]
    dsimp only
    rw [h4]
    dsimp only
    simp [verify_is_public, hpub]

/-- Witness for C2 (amended): the concrete non-public page is rejected. -/
theorem missing_public_marker_always_rejected_witness :
    ((pageAudienceNoCommunity.verify baseCtx zeroBudget).1).isOk = false :=
  (missing_public_marker_always_rejected pageAudienceNoCommunity baseCtx zeroBudget
    (by decide)).1

/-- Counterexample for C3: on a page with an empty audience list both the
audience-publicity check (step 1 of the claimed order) and community
resolution (step 3) fail, and `Page::verify` reports the community error,
so a later check's error is returned although an earlier check (in the
claimed order) fails: the claimed order is not the code's order. -/
theorem verify_not_in_claimed_order :
    pageEmptyAudience.toAddrs.contains publicUrl = false ∧
    (pageEmptyAudience.verify baseCtx zeroBudget).1 =
      Except.error LemmyError.noCommunityInAudience :=
  ⟨rfl, rfl⟩

/-- C3 (amended): `Page::verify` runs its checks in this order —
(1) community resolution scanning the audience list in order and accepting
the first address that resolves, (2) title content-safety, (3) the
attribution-versus-own-address domain check, (4) membership of the
attributed actor in the resolved community, (5) audience contains the
public marker — and the first failing check short-circuits, so a later
check's error is never returned when an earlier check fails. -/
theorem verify_check_order (page : Page) (ctx : LemmyContext) (b : Budget) :
    (∀ e b1, page.extract_community ctx b = (Except.error e, b1) →
      page.verify ctx b = (Except.error e, b1)) ∧
    (∀ c b1 e, page.extract_community ctx b = (Except.ok c, b1) →
      check_slurs page.name ctx.settings.slurs = Except.error e →
      page.verify ctx b = (Except.error e, b1)) ∧
    (∀ c b1 e, page.extract_community ctx b = (Except.ok c, b1) →
      check_slurs page.name ctx.settings.slurs = Except.ok () →
      verify_domains_match page.attributed_to page.id = Except.error e →
      page.verify ctx b = (Except.error e, b1)) ∧
    (∀ c b1 e b2, page.extract_community ctx b = (Except.ok c, b1) →
      check_slurs page.name ctx.settings.slurs = Except.ok () →
      verify_domains_match page.attributed_to page.id = Except.ok () →
      verify_person_in_community ctx page.attributed_to c b1 = (Except.error e, b2) →
      page.verify ctx b = (Except.error e, b2)) ∧
    (∀ c b1 b2, page.extract_community ctx b = (Except.ok c, b1) →
      check_slurs page.name ctx.settings.slurs = Except.ok () →
      verify_domains_match page.attributed_to page.id = Except.ok () →
      verify_person_in_community ctx page.attributed_to c b1 = (Except.ok (), b2) →
      publicUrl ∉ page.toAddrs →
      page.verify ctx b = (Except.error LemmyError.notPublic, b2)) := by
  refine ⟨?_, ?_, ?_, ?_, ?_⟩
  · intro e b1 h1
    unfold Page.verify
    rw [h1]
  · intro c b1 e h1 h2
    unfold Page.verify
    rw [h1]
    dsimp only
    rw [h2]
  · intro c b1 e h1 h2 h3
    unfold Page.verify
    rw [h1]
    dsimp only
    rw [h2]
    dsimp only
    rw [h3]
  · intro c b1 e b2 h1 h2 h3 h4
    unfold Page.verify
    rw [h1]
    dsimp only
    rw [h2]
    dsimp only
    rw [h3]
    dsimp only
    rw [h4]
  · intro c b1 b2 h1 h2 h3 h4 hpub
    unfold Page.verify
    rw [h1]
    dsimp only
    rw [h2]
    dsimp only
    rw [h3]
    dsimp only
    rw [h4]
    dsimp only
    simp [verify_is_public, hpub]

/-- Witness for C3 (amended): on a page passing checks (1)-(4) but not
carrying the public marker, `Page::verify` reports `NotPublic`. -/
theorem verify_check_order_witness :
    pageNoPublic.verify baseCtx zeroBudget =
      (Except.error LemmyError.notPublic, zeroBudget) :=
  (verify_check_order pageNoPublic baseCtx zeroBudget).2.2.2.2 cats zeroBudget zeroBudget
    rfl rfl rfl rfl (by decide)

/-- Counterexample for C4: a page whose attribution authority differs from
its own address authority is not classified as a moderator action, yet
`from_apub` accepts it — `from_apub`'s domain check compares the page's
own address against the expected (fetch-origin) domain, not the
attribution against the page's own address. -/
theorem from_apub_accepts_attribution_mismatch :
    pageRemoteAuthor.attributed_to.host ≠ pageRemoteAuthor.id.host ∧
    pageRemoteAuthor.is_mod_action ctxRemoteAuthor = false ∧
    ((from_apub pageRemoteAuthor ctxRemoteAuthor uPost zeroBudget).1).isOk = true :=
  ⟨by decide, rfl, rfl⟩

/-- C4 (amended): the relaxed domain check of `from_apub` compares the
page's own address authority with the expected domain: when they differ
and the object is not classified as a moderator action the conversion is
rejected with `DomainMismatch` and nothing is persisted; when the object
is classified as a moderator action the page's own address is accepted
without being checked, so the result is independent of the expected
domain.  (The attribution-versus-own-address comparison is performed
unconditionally in `Page::verify`, not here.) -/
theorem from_apub_domain_check (page : Page) (ctx : LemmyContext) (ed : Url)
    (b : Budget) :
    (page.is_mod_action ctx = false → page.id.host ≠ ed.host →
      from_apub page ctx ed b = (Except.error LemmyError.domainMismatch, ctx, b)) ∧
    (page.is_mod_action ctx = true →
      ∀ ed2, from_apub page ctx ed b = from_apub page ctx ed2 b) := by
  constructor
  · intro hmod hne
    unfold from_apub Page.idVerified verify_domains_match
    rw [hmod]
    simp [hne]
  · intro hmod ed2
    unfold from_apub
    rw [hmod]
    rfl

/-- Witness for C4 (amended): a concrete page fetched from the wrong
domain is rejected with `DomainMismatch`, state unchanged. -/
theorem from_apub_domain_check_witness :
    from_apub basePage baseCtx uRemoteBob zeroBudget =
      (Except.error LemmyError.domainMismatch, baseCtx, zeroBudget) :=
  (from_apub_domain_check basePage baseCtx uRemoteBob zeroBudget).1 rfl (by decide)

/-- Counterexample for C6: the wire object produced by `to_apub` depends
on the stored community row (read from persistence), not on the local post
alone: the same post converts to different audiences under two stores that
differ only in the community's address. -/
theorem to_apub_reads_stored_entities :
    (to_apub storedPost baseCtx).toOption.map Page.toAddrs ≠
      (to_apub storedPost ctxOtherCommunity).toOption.map Page.toAddrs := by
  decide

/-- C6 (amended): `to_apub` performs no network access and consumes no
request budget; its output is determined by the local post together with
the persistence reads of the creator and community rows and the pure
rendering and timestamp collaborators.  The produced audience list is
exactly [community address, public marker], rendered content is present
exactly when the body is present, and comments-enabled is the negation of
locked. -/
theorem to_apub_fields (post : Post) (ctx1 ctx2 : LemmyContext) (page : Page)
    (h1 : Person.read ctx1 post.creator_id = Person.read ctx2 post.creator_id)
    (h2 : Community.read ctx1 post.community_id = Community.read ctx2 post.community_id)
    (h3 : ctx1.renderMarkdown = ctx2.renderMarkdown)
    (h4 : ctx1.settings.localOffset = ctx2.settings.localOffset)
    (hpage : to_apub post ctx1 = Except.ok page) :
    to_apub post ctx1 = to_apub post ctx2 ∧
    (∃ community, Community.read ctx1 post.community_id = Except.ok community ∧
      page.toAddrs = [community.actor_id, publicUrl]) ∧
    page.content.isSome = post.body.isSome ∧
    page.comments_enabled = some (!post.locked) ∧
    page.source = post.body.map (fun b => { content := b }) ∧
    page.stickied = some post.stickied ∧
    page.sensitive = some post.nsfw := by
  unfold to_apub at hpage
  cases hcr : Person.read ctx1 post.creator_id with
  | error e => rw [hcr] at hpage; exact absurd hpage (by simp)
  | ok creator =>
    rw [hcr] at hpage
    dsimp only at hpage
    cases hco : Community.read ctx1 post.community_id with
    | error e => rw [hco] at hpage; exact absurd hpage (by simp)
    | ok community =>
      rw [hco] at hpage
      dsimp only at hpage
      injection hpage with hrec
      subst hrec
      refine ⟨?_, ⟨community, rfl, rfl⟩, ?_, rfl, rfl, rfl, rfl⟩
      · unfold to_apub
        rw [← h1, ← h2, hcr, hco, h3, h4]
      · simp

/-- Witness for C6 (amended): concrete conversion is unaffected by a store
that differs only in the posts table, and the field facts hold. -/
theorem to_apub_fields_witness :
    to_apub storedPost baseCtx = to_apub storedPost ctxWithStored ∧
      storedPostPage.comments_enabled = some (!storedPost.locked) :=
  ⟨(to_apub_fields storedPost baseCtx ctxWithStored storedPostPage rfl rfl rfl rfl rfl).1,
    (to_apub_fields storedPost baseCtx ctxWithStored storedPostPage rfl rfl rfl rfl
      rfl).2.2.2.1⟩

/-- The upserted row always carries the form's thumbnail. -/
theorem upsert_thumbnail (ctx : LemmyContext) (form : PostForm) :
    ((Post.upsert ctx form).1).thumbnail_url = form.thumbnail_url := by
  unfold Post.upsert
  cases ha : form.ap_id with
  | none => rfl
  | some addr =>
    dsimp only
    cases hf : ctx.posts.find? (fun p => p.ap_id == addr) with
    | some old => rfl
    | none => rfl

/-- Counterexample for C7: when the wire object carries a link URL, the
thumbnail fetched from the metadata source is the one persisted and the
explicit thumbnail (image field) is ignored — the explicit thumbnail does
not take precedence. -/
theorem explicit_thumbnail_ignored_when_link_present :
    pageWithThumb.image = some { url := uImg } ∧
    ((from_apub pageWithThumb ctxWithMetadata uPost zeroBudget).1.toOption.map
        Post.thumbnail_url) = some (some uFetched) ∧
    uImg ≠ uFetched :=
  ⟨rfl, rfl, by decide⟩

/-- C7 (amended): during inbound conversion the explicit thumbnail is
persisted only when the wire object carries no link URL; when a link URL
is present, the conversion persists whatever thumbnail the metadata fetch
returns and the explicit thumbnail is ignored. -/
theorem thumbnail_selection (page : Page) (ctx : LemmyContext) (ed : Url) (b : Budget)
    (post : Post) (hok : (from_apub page ctx ed b).1 = Except.ok post) :
    (page.url = none → post.thumbnail_url = page.image.map (fun i => i.url)) ∧
    (∀ u, page.url = some u → post.thumbnail_url = (ctx.siteData u).2) := by
  unfold from_apub at hok
  rcases hA : (if page.is_mod_action ctx then Except.ok page.id_unchecked
      else page.idVerified ed : Except LemmyError Url) with e1 | apid
  · rw [hA] at hok
    exact absurd hok (by simp)
  · rw [hA] at hok
    dsimp only at hok
    rcases hp : dereferencePerson ctx page.attributed_to b with ⟨r1, b1⟩
    rw [hp] at hok
    cases r1 with
    | error e => exact absurd hok (by simp)
    | ok creator =>
      dsimp only at hok
      rcases hc : page.extract_community ctx b1 with ⟨r2, b2⟩
      rw [hc] at hok
      cases r2 with
      | error e => exact absurd hok (by simp)
      | ok community =>
        dsimp only at hok
        rcases hm : verify_person_in_community ctx page.attributed_to community b2
          with ⟨r3, b3⟩
        rw [hm] at hok
        cases r3 with
        | error e => exact absurd hok (by simp)
        | ok u2 =>
          dsimp only at hok
          injection hok with hpost
          constructor
          · intro hu
            rw [← hpost, upsert_thumbnail]
            simp [hu]
          · intro u hu
            rw [← hpost, upsert_thumbnail]
            simp [hu]

/-- Witness for C7 (amended): for a concrete page without a link URL the
(absent) explicit thumbnail is what gets persisted. -/
theorem thumbnail_selection_witness :
    storedPost.thumbnail_url = basePage.image.map (fun i => i.url) :=
  (thumbnail_selection basePage baseCtx uPost zeroBudget storedPost rfl).1 rfl

/-- C8: for every local post P, converting P to a wire object with
`to_apub` and converting the result back with `from_apub` (using P's own
address as the expected domain and a fresh budget) yields a post equal to
P on every field that does not require network enrichment: title, body,
external URL, locked, stickied, sensitivity, address and timestamps.  The
hypotheses say that P's creator and community are stored (and resolvable
by their addresses), the creator is not banned from the community, no row
for P's address is stored yet, and P's body is slur-free (body
sanitization is the identity on it). -/
theorem round_trip (P : Post) (ctx : LemmyContext) (page : Page) (b : Budget)
    (creator : Person) (community : Community)
    (hpage : to_apub P ctx = Except.ok page)
    (hcr : Person.read ctx P.creator_id = Except.ok creator)
    (hco : Community.read ctx P.community_id = Except.ok community)
    (hfindp : ctx.persons.find? (fun p => p.actor_id == creator.actor_id) = some creator)
    (hfindc : ctx.communities.find? (fun c => c.actor_id == community.actor_id) =
      some community)
    (hban : (creator.id, community.id) ∉ ctx.banned)
    (hnopost : ctx.posts.find? (fun p => p.ap_id == P.ap_id) = none)
    (hbody : P.body.map (remove_slurs ctx.settings.slurs) = P.body) :
    ∃ post : Post,
      (from_apub page ctx P.ap_id b).1 = Except.ok post ∧
      post.name = P.name ∧ post.body = P.body ∧ post.url = P.url ∧
      post.locked = P.locked ∧ post.stickied = P.stickied ∧ post.nsfw = P.nsfw ∧
      post.ap_id = P.ap_id ∧ post.published = P.published ∧ post.updated = P.updated := by
  unfold to_apub at hpage
  rw [hcr] at hpage
  dsimp only at hpage
  rw [hco] at hpage
  dsimp only at hpage
  injection hpage with hrec
  have e_id : page.id = P.ap_id := by rw [← hrec]
  have e_att : page.attributed_to = creator.actor_id := by rw [← hrec]
  have e_to : page.toAddrs = [community.actor_id, publicUrl] := by rw [← hrec]
  have e_name : page.name = P.name := by rw [← hrec]
  have e_src : page.source = P.body.map (fun bb => ({ content := bb } : Source)) := by
    rw [← hrec]
  have e_url : page.url = P.url := by rw [← hrec]
  have e_ce : page.comments_enabled = some (!P.locked) := by rw [← hrec]
  have e_sens : page.sensitive = some P.nsfw := by rw [← hrec]
  have e_st : page.stickied = some P.stickied := by rw [← hrec]
  have e_pub : page.published =
      some (convert_datetime ctx.settings.localOffset P.published) := by rw [← hrec]
  have e_upd : page.updated = P.updated.map (convert_datetime ctx.settings.localOffset) := by
    rw [← hrec]
  have hmodlocal : dereference_local_post ctx P.ap_id = Except.error LemmyError.notFound := by
    unfold dereference_local_post
    rw [hnopost]
  have hmodp : page.is_mod_action ctx = false := by
    unfold Page.is_mod_action
    rw [e_id, hmodlocal]
  have hid : page.idVerified P.ap_id = Except.ok page.id := by
    unfold Page.idVerified verify_domains_match
    rw [e_id]
    simp
  have hderefP : dereferencePerson ctx creator.actor_id b = (Except.ok creator, b) := by
    unfold dereferencePerson
    rw [hfindp]
  have hderefC : dereferenceCommunity ctx community.actor_id b = (Except.ok community, b) := by
    unfold dereferenceCommunity
    rw [hfindc]
  have hextract : extractCommunityAux ctx [community.actor_id, publicUrl] b =
      (Except.ok community, b) := by
    unfold extractCommunityAux
    rw [hderefC]
  have hvpc : verify_person_in_community ctx creator.actor_id community b =
      (Except.ok (), b) := by
    unfold verify_person_in_community
    rw [hderefP]
    simp [hban]
  simp only [from_apub, hmodp, Bool.false_eq_true, if_false, hid, e_id, e_att, e_to,
    e_name, e_src, e_url, e_ce, e_sens, e_st, e_pub, e_upd, Page.extract_community,
    hderefP, hextract, hvpc]
  refine ⟨_, rfl, ?_, ?_, ?_, ?_, ?_, ?_, ?_, ?_, ?_⟩ <;>
      simp only [Post.upsert, hnopost, postOfForm] <;>
      first
        | rfl
        | simpa [Option.map_map] using hbody
        | simp [Option.map_map, Function.comp, convert_datetime,
            DateTimeFixedOffset.naive_local]
        | skip
  cases hupd : P.updated <;>
    simp [convert_datetime, DateTimeFixedOffset.naive_local, Function.comp]

/-- Witness for C8: the concrete sample post round-trips through
`to_apub` and `from_apub` with every compared field restored. -/
theorem round_trip_witness :
    ∃ post : Post,
      (from_apub storedPostPage baseCtx storedPost.ap_id zeroBudget).1 =
        Except.ok post ∧
      post.name = storedPost.name ∧ post.body = storedPost.body ∧
      post.url = storedPost.url ∧ post.locked = storedPost.locked ∧
      post.stickied = storedPost.stickied ∧ post.nsfw = storedPost.nsfw ∧
      post.ap_id = storedPost.ap_id ∧ post.published = storedPost.published ∧
      post.updated = storedPost.updated :=
  round_trip storedPost baseCtx storedPostPage zeroBudget bob cats rfl rfl rfl rfl rfl
    (by decide) rfl rfl
